import Mathlib

/-!
Verification of the ros_bag_tools repository (scripts/export_csv.py,
scripts/pick_topics.py, scripts/remove_topics.py) against its
natural-language specification.

The three Python scripts are shallowly embedded below.  A ROS message is a
Python object: objects carrying a declared, ordered field set (slots) are
modelled by the node constructor of Payload, terminal scalar values by the
leaf constructor.  The rosbag container is modelled as the ordered list of
its records; the read API filtered by a topic list is modelled as an
order-preserving filter, following the external-collaborator contract of the
spec (sequential read yields records in original append order).  Python
exceptions are modelled by the PyError type: assertionError for a failed
assert statement, attributeError for a failed attribute lookup, ioError for
a failed bag open.  Timestamps are (secs, nsecs) integer pairs; to_sec
models the conversion to seconds as an exact rational number.
-/

/-- Exceptions raised by the embedded code.  assertionError models a failing
Python assert, attributeError a Python AttributeError naming the missing
attribute, ioError a failure to open a bag file. -/
inductive PyError where
  | assertionError
  | attributeError (name : String)
  | ioError (path : String)
deriving DecidableEq

/-- Values returned by the embedded Python functions: the constant None or an
integer. -/
inductive PyValue where
  | none
  | int (n : Int)
deriving DecidableEq

mutual
/-- A ROS message payload.  A node is an object with a declared, ordered slot
list (Python: hasattr(x, given slots attribute) is true); a leaf is a
terminal scalar value without one. -/
inductive Payload where
  | leaf (v : Int)
  | node (fields : Fields)
deriving DecidableEq

/-- The ordered declared field list of a node payload, mirroring the order of
a Python object's slot tuple. -/
inductive Fields where
  | fnil
  | fcons (name : String) (val : Payload) (rest : Fields)
deriving DecidableEq
end

/-- Looks a field name up in a declared field list (Python attribute access on
the owning object). -/
def Fields.lookup : Fields → String → Option Payload
  | .fnil, _ => none
  | .fcons n v rest, s => if n = s then some v else Fields.lookup rest s

/-- Python getattr (msg.__getattribute__(s) in export_csv.py): returns the
field's value, raising AttributeError when the object has no such field.
A leaf has no message fields at all. -/
def getattr (msg : Payload) (s : String) : Except PyError Payload :=
  match msg with
  | .leaf _ => .error (.attributeError s)
  | .node fs =>
    match fs.lookup s with
    | some v => .ok v
    | none => .error (.attributeError s)

/-- Whether a payload has a declared field of the given name. -/
def has_field : Payload → String → Bool
  | .leaf _, _ => false
  | .node fs, s => (fs.lookup s).isSome

/-- All field names in a payload are nonempty.  Python slot names are
required to be identifiers, so this holds of every payload the scripts can
ever receive; it is the domain on which the embedding is faithful. -/
def names_ok : Fields → Bool
  | .fnil => true
  | .fcons s v rest =>
    (!(s = "")) &&
    (match v with
     | .leaf _ => true
     | .node fs => names_ok fs) &&
    names_ok rest

/-- Loop body of flatten_topic_fields (export_csv.py lines 33-42): iterates
the declared fields in declaration order; a field whose value has no slot
attribute contributes its dotted name as a leaf, otherwise the traversal
recurses into it with the dotted name as the new prefix.  The dotted name is
the bare field name when the prefix is the empty string (Python: the join is
taken only if field_prefix is truthy). -/
def flatten_fields (pre : String) : Fields → List String
  | .fnil => []
  | .fcons s (Payload.leaf _) rest =>
      (if pre = "" then s else pre ++ "." ++ s) :: flatten_fields pre rest
  | .fcons s (Payload.node fs) rest =>
      flatten_fields (if pre = "" then s else pre ++ "." ++ s) fs ++ flatten_fields pre rest

/-- flatten_topic_fields (export_csv.py lines 22-42): asserts that the
message has a declared field set (line 31, raising AssertionError otherwise)
and returns the flattened field names.  The Python default prefix is the
empty string; call sites of the embedding pass it explicitly. -/
def flatten_topic_fields (msg : Payload) (pre : String) : Except PyError (List String) :=
  match msg with
  | .leaf _ => .error .assertionError
  | .node fs => .ok (flatten_fields pre fs)

/-- Helper for py_split_dot: scans the character list, cutting at every dot;
acc holds the characters of the current chunk in reverse. -/
def py_split_dot_aux : List Char → List Char → List String
  | [], acc => [String.mk acc.reverse]
  | c :: cs, acc =>
      if c = '.' then String.mk acc.reverse :: py_split_dot_aux cs []
      else py_split_dot_aux cs (c :: acc)

/-- Python str.split with separator the dot character, as used by
get_field_value (export_csv.py line 55).  Splitting the empty string yields
a single empty chunk, and consecutive dots yield empty chunks, exactly as in
Python. -/
def py_split_dot (s : String) : List String := py_split_dot_aux s.data []

/-- Loop of get_field_value (export_csv.py lines 54-56): starting from the
message, resolves one attribute per path segment; a missing segment raises
AttributeError there and resolution stops. -/
def resolve_path (layer : Payload) : List String → Except PyError Payload
  | [] => .ok layer
  | s :: rest =>
    match getattr layer s with
    | .error e => .error e
    | .ok next => resolve_path next rest

/-- get_field_value (export_csv.py lines 45-58): splits the field name on
dots and resolves the segments by sequential attribute lookup. -/
def get_field_value (msg : Payload) (fieldname : String) : Except PyError Payload :=
  resolve_path msg (py_split_dot fieldname)

/-- A ROS time stamp (seconds and nanoseconds). -/
structure Time where
  secs : Int
  nsecs : Int
deriving DecidableEq

/-- rospy Time.to_sec: the time stamp as a number of seconds, modelled as an
exact rational. -/
def Time.to_sec (t : Time) : ℚ := t.secs + t.nsecs / 1000000000

/-- One record of a bag: topic name, message payload, time stamp, exactly the
triple yielded by rosbag read_messages. -/
structure Record where
  topic : String
  msg : Payload
  t : Time
deriving DecidableEq

/-- rosbag Bag.read_messages restricted by a topic list: yields exactly the
records whose topic is in the list, in the bag's own record order (the
external collaborator contract of the spec: sequential read in original
append order). -/
def read_messages (bag : List Record) (topics : List String) : List Record :=
  bag.filter (fun r => topics.contains r.topic)

/-- One csv cell: the synthetic time column value (a number of seconds) or a
payload value extracted by field path. -/
inductive Cell where
  | time (q : ℚ)
  | val (p : Payload)

/-- The content of a csv file: the written header row and the written data
rows, each row in the column order of the header. -/
structure CsvFile where
  header : List String
  rows : List (List Cell)

/-- Row-building loop of export_topic_to_csv (export_csv.py lines 106-107):
extracts the value of each cached field name from the message, in field
order; the first failing lookup raises and aborts the row. -/
def extract_values (msg : Payload) : List String → Except PyError (List Payload)
  | [] => .ok []
  | f :: rest =>
    match get_field_value msg f with
    | .error e => .error e
    | .ok v =>
      match extract_values msg rest with
      | .error e => .error e
      | .ok vs => .ok (v :: vs)

/-- Builds one csv row (export_csv.py lines 104-108): the synthetic time cell
holding the record's time stamp in seconds, followed by the extracted value
of every cached field name in order. -/
def make_row (fns : List String) (r : Record) : Except PyError (List Cell) :=
  match extract_values r.msg fns with
  | .error e => .error e
  | .ok vals => .ok (Cell.time r.t.to_sec :: vals.map Cell.val)

/-- The mutable state of the export loop: before the first record the cached
field-name list and the csv file are both None (export_csv.py lines 73-75);
after the first record the field names are cached and the file holds the
written rows. -/
inductive ExportState where
  | start
  | writing (fns : List String) (rows : List (List Cell))

/-- Loop body of export_topic_to_csv (export_csv.py lines 90-108) for one
record, returning the successor state and the exception raised, if any.  On
the first record the payload is flattened (which can raise before the file
is opened); then the header is written and the first row is built and
written.  On later records the cached field names are reused unchanged.  A
row that fails to build leaves the file as it was (DictWriter.writerow runs
only after the whole row dictionary is built). -/
def export_step : ExportState → Record → ExportState × Option PyError
  | .start, r =>
    match flatten_topic_fields r.msg "" with
    | .error e => (.start, some e)
    | .ok fns =>
      match make_row fns r with
      | .error e => (.writing fns [], some e)
      | .ok row => (.writing fns [row], none)
  | .writing fns rows, r =>
    match make_row fns r with
    | .error e => (.writing fns rows, some e)
    | .ok row => (.writing fns (rows ++ [row]), none)

/-- Runs the export loop over a record list, stopping at the first raised
exception and reporting the state reached. -/
def export_run : ExportState → List Record → ExportState × Option PyError
  | st, [] => (st, none)
  | st, r :: rest =>
    match export_step st r with
    | (st2, some e) => (st2, some e)
    | (st2, none) => export_run st2 rest

/-- The csv file on disk in a given export state: none when the file was
never opened, otherwise the header (the synthetic time column followed by
the cached field names, export_csv.py line 99) and the rows written so far. -/
def state_file : ExportState → Option CsvFile
  | .start => none
  | .writing fns rows => some ⟨"_ros_time_sec" :: fns, rows⟩

/-- export_topic_to_csv (export_csv.py lines 61-115): reads the records of
the requested topic in order and runs the export loop, then closes the csv
file (line 115).  The result is the csv file content on disk together with
the exception raised, if any.  When no record matched, csv_file is still
None at line 115 and csv_file.close() raises AttributeError; no file was
created. -/
def export_topic_to_csv (bag : List Record) (topic_name : String) :
    Option CsvFile × Option PyError :=
  match export_run .start (read_messages bag [topic_name]) with
  | (st, some e) => (state_file st, some e)
  | (.start, none) => (none, some (.attributeError "close"))
  | (.writing fns rows, none) => (some ⟨"_ros_time_sec" :: fns, rows⟩, none)

/-- The Python return value of export_topic_to_csv: the function body has no
return statement (n_msgs is initialized at line 72 but never returned), so a
run that raises no exception returns None. -/
def export_topic_to_csv_ret (bag : List Record) (topic_name : String) :
    Except PyError PyValue :=
  match export_topic_to_csv bag topic_name with
  | (_, some e) => .error e
  | (_, none) => .ok PyValue.none

/-- Inner batch loop of export_csv main (export_csv.py lines 157-173): one
csv export per topic of the current bag, with no try-except around the call,
so a raised exception propagates immediately. -/
def export_csv_inner (bag : List Record) :
    List String → List (Option CsvFile) → Except PyError (List (Option CsvFile))
  | [], acc => .ok acc
  | topic_name :: rest, acc =>
    match export_topic_to_csv bag topic_name with
    | (_, some e) => .error e
    | (file, none) => export_csv_inner bag rest (acc ++ [file])

/-- Outer batch loop of export_csv main (export_csv.py lines 156-173) over
the bag files; again no try-except, so an exception raised for one bag
aborts the remaining bags. -/
def export_csv_outer : List (List Record) → List String → List (Option CsvFile) →
    Except PyError (List (Option CsvFile))
  | [], _, acc => .ok acc
  | bag :: bags, topics, acc =>
    match export_csv_inner bag topics acc with
    | .error e => .error e
    | .ok acc2 => export_csv_outer bags topics acc2

/-- The batch of export_csv main: the csv files produced for every bag and
topic pair in order, or the first uncaught exception. -/
def export_csv_main (bags : List (List Record)) (topics : List String) :
    Except PyError (List (Option CsvFile)) :=
  export_csv_outer bags topics []

/-- Content written to the output bag by pick_topics_from_bag
(pick_topics.py lines 51-53): every record yielded for the requested topics
is written to the output bag with topic, message and time stamp unchanged,
in the order read. -/
def pick_topics_from_bag (bag : List Record) (topics : List String) : List Record :=
  read_messages bag topics

/-- The topic names present in a bag, as enumerated by the
get_type_and_topic_info index of remove_topics.py line 39 (only membership
in this list matters downstream). -/
def bag_channels (bag : List Record) : List String :=
  (bag.map Record.topic).dedup

/-- Topics kept by remove_topics_from_bag (remove_topics.py lines 42-45):
the topics present in the bag that are not in the removal list. -/
def topics_remain (bag : List Record) (topics : List String) : List String :=
  (bag_channels bag).filter (fun c => !topics.contains c)

/-- Content written to the output bag by remove_topics_from_bag
(remove_topics.py lines 58-61): the records of the kept topics, written
verbatim in the order read. -/
def remove_topics_from_bag (bag : List Record) (topics : List String) : List Record :=
  read_messages bag (topics_remain bag topics)

/-- rosbag.Bag on a source path: raises when the bag cannot be opened,
modelled by the absent option. -/
def rosbag_open (src : Option (List Record)) : Except PyError (List Record) :=
  match src with
  | Option.none => .error (.ioError "bag")
  | some bag => .ok bag

/-- A run of pick_topics_from_bag over a source that may fail to open: the
source bag is opened first (pick_topics.py line 35) and only then is the
output bag created (line 36).  The result pairs the outcome (output bag
content and Python return value, which is None since the function has no
return statement) with whether the output bag file was created. -/
def pick_topics_run (src : Option (List Record)) (topics : List String) :
    Except PyError (List Record × PyValue) × Bool :=
  match rosbag_open src with
  | .error e => (.error e, false)
  | .ok bag => (.ok (pick_topics_from_bag bag topics, PyValue.none), true)

/-- A run of remove_topics_from_bag over a source that may fail to open: the
source bag is opened first (remove_topics.py line 35) and only then is the
output bag created (line 36); the Python return value is None since the
function has no return statement. -/
def remove_topics_run (src : Option (List Record)) (topics : List String) :
    Except PyError (List Record × PyValue) × Bool :=
  match rosbag_open src with
  | .error e => (.error e, false)
  | .ok bag => (.ok (remove_topics_from_bag bag topics, PyValue.none), true)

/-- Sample payload with leaf paths a and b.c, first record. -/
def pay1 : Payload :=
  .node (.fcons "a" (.leaf 1) (.fcons "b" (.node (.fcons "c" (.leaf 2) .fnil)) .fnil))

/-- Sample payload with the same schema as pay1, second record. -/
def pay2 : Payload :=
  .node (.fcons "a" (.leaf 3) (.fcons "b" (.node (.fcons "c" (.leaf 4) .fnil)) .fnil))

/-- Sample record on topic /t at time 5 s. -/
def rec1 : Record := ⟨"/t", pay1, ⟨5, 0⟩⟩

/-- Sample record on topic /t at time 6 s. -/
def rec2 : Record := ⟨"/t", pay2, ⟨6, 0⟩⟩

/-- Sample record on topic /u at time 7 s. -/
def rec3 : Record := ⟨"/u", .node (.fcons "x" (.leaf 9) .fnil), ⟨7, 0⟩⟩

/-- Sample bag holding two records on /t and one on /u. -/
def bagT : List Record := [rec1, rec2, rec3]

/-- The csv file produced by exporting topic /t from bagT. -/
def csvT : CsvFile :=
  ⟨["_ros_time_sec", "a", "b.c"],
   [[Cell.time (Time.mk 5 0).to_sec, Cell.val (.leaf 1), Cell.val (.leaf 2)],
    [Cell.time (Time.mk 6 0).to_sec, Cell.val (.leaf 3), Cell.val (.leaf 4)]]⟩

/-! ## Helper lemmas -/

theorem string_append_ne_empty (a b : String) : a ++ "." ++ b ≠ "" := by
  intro h
  have h2 : (a ++ "." ++ b).data = ("" : String).data := congrArg String.data h
  simp [String.data_append] at h2

/-- Flattening with a nonempty prefix prepends the prefix and a dot to every
path produced at the root, provided every field name of the subtree is
nonempty (Python slot names are identifiers, hence nonempty). -/
theorem flatten_fields_deep (pre0 : String) (fs : Fields) :
    ∀ pre, pre ≠ "" → names_ok fs = true →
      flatten_fields pre fs = (flatten_fields "" fs).map (fun q => pre ++ "." ++ q) := by
  induction pre0, fs using flatten_fields.induct with
  | case1 pre0 =>
    intro pre hpre hok
    simp [flatten_fields]
  | case2 pre0 s v rest ih =>
    intro pre hpre hok
    simp only [names_ok, Bool.and_eq_true] at hok
    simp only [flatten_fields, if_neg hpre, List.map_cons]
    rw [ih pre hpre hok.2]
    simp
  | case3 pre0 s fs rest ih1 ih2 =>
    intro pre hpre hok
    simp only [names_ok, Bool.and_eq_true, Bool.not_eq_eq_eq_not, Bool.not_true,
      decide_eq_false_iff_not] at hok
    have hs : s ≠ "" := hok.1.1
    simp only [flatten_fields, if_neg hpre, List.map_append, if_pos, if_true,
      reduceIte]
    rw [ih1 (pre ++ "." ++ s) (string_append_ne_empty pre s) hok.1.2,
        ih1 s hs hok.1.2, ih2 pre hpre hok.2, List.map_map]
    congr 1
    apply List.map_congr_left
    intro q _
    simp [Function.comp, String.append_assoc]

/-! ## Claim theorems -/

/-- C2: flatten performs a depth-first traversal of the declared fields in
declaration order: a payload with zero declared fields yields the empty
sequence; a leaf field (a value with no declared sub-fields) emits its bare
name at the root; a branch field is recursed into, its subtree paths coming
before the later siblings and, for nonempty-named subtrees under a nonempty
prefix, carrying exactly the parent prefix and a dot prepended; at the root
no prefix is applied. -/
theorem flatten_depth_first_decl_order (s : String) (v : Int) (fs rest : Fields)
    (pre : String) :
    flatten_topic_fields (.node .fnil) pre = .ok []
    ∧ flatten_fields "" (.fcons s (.leaf v) rest) = s :: flatten_fields "" rest
    ∧ flatten_fields "" (.fcons s (.node fs) rest)
        = flatten_fields s fs ++ flatten_fields "" rest
    ∧ (pre ≠ "" → names_ok fs = true →
        flatten_fields pre fs = (flatten_fields "" fs).map (fun q => pre ++ "." ++ q)) := by
  refine ⟨rfl, by simp [flatten_fields], by simp [flatten_fields], ?_⟩
  intro hpre hok
  exact flatten_fields_deep pre fs pre hpre hok

/-- Witness for C2 at a concrete payload: the subtree of pay1 under field b
flattens to b.c when prefixed with b. -/
theorem flatten_depth_first_decl_order_witness :
    flatten_fields "b" (.fcons "c" (.leaf 2) .fnil)
      = (flatten_fields "" (.fcons "c" (.leaf 2) .fnil)).map (fun q => "b" ++ "." ++ q) :=
  (flatten_depth_first_decl_order "c" 2 (.fcons "c" (.leaf 2) .fnil) .fnil "b").2.2.2
    (by decide) (by decide)

/-- C7: a payload that exposes no introspectable field set (a terminal
scalar, which has no slot attribute) makes flatten fail with the
AssertionError of line 31 of export_csv.py, which realizes the SchemaError
of the spec, while an empty structured record succeeds with the empty
sequence. -/
theorem flatten_no_field_set_fails (v : Int) (pre : String) :
    flatten_topic_fields (.leaf v) pre = .error .assertionError
    ∧ flatten_topic_fields (.node .fnil) pre = .ok [] :=
  ⟨rfl, rfl⟩

/-- A payload without a field of the given name makes attribute lookup raise
AttributeError naming that field. -/
theorem getattr_not_found (layer : Payload) (s : String)
    (h : has_field layer s = false) :
    getattr layer s = .error (.attributeError s) := by
  cases layer with
  | leaf v => rfl
  | node fs =>
    simp only [has_field] at h
    cases hl : fs.lookup s with
    | none => simp [getattr, hl]
    | some v => rw [hl] at h; simp at h

/-- Path resolution over an appended segment list runs the first part first;
when that part succeeds, resolution continues from the layer it reached. -/
theorem resolve_path_append (l2 : List String) :
    ∀ (l1 : List String) (msg layer : Payload), resolve_path msg l1 = .ok layer →
      resolve_path msg (l1 ++ l2) = resolve_path layer l2 := by
  intro l1
  induction l1 with
  | nil =>
    intro msg layer h
    cases h
    rfl
  | cons s rest ih =>
    intro msg layer h
    simp only [resolve_path, List.cons_append] at h ⊢
    cases hg : getattr msg s with
    | error e => rw [hg] at h; cases h
    | ok next => rw [hg] at h; exact ih next layer h

/-- Value extraction over an appended field-name list: once the first part
succeeds, a failure in the second part is the failure of the whole loop. -/
theorem extract_values_append_error (msg : Payload) (l2 : List String) (e : PyError)
    (h2 : extract_values msg l2 = .error e) :
    ∀ (l1 : List String) (vs : List Payload), extract_values msg l1 = .ok vs →
      extract_values msg (l1 ++ l2) = .error e := by
  intro l1
  induction l1 with
  | nil => intro vs h; simpa using h2
  | cons f rest ih =>
    intro vs h
    simp only [extract_values, List.cons_append] at h ⊢
    cases hg : get_field_value msg f with
    | error e2 => rw [hg] at h; cases h
    | ok v =>
      rw [hg] at h
      cases hr : extract_values msg rest with
      | error e2 => rw [hr] at h; cases h
      | ok vs2 => simp [ih vs2 hr]

/-- C6: a dotted path with a segment missing on the layer reached at that
point makes get_field_value raise AttributeError naming the missing segment
(no null or default value is produced), and inside the export loop such a
failure while building a row is fatal for the record: the loop step reports
the exception and writes nothing. -/
theorem get_field_value_missing_segment (msg layer : Payload) (pre : List String)
    (seg : String) (rest : List String) (fieldname : String)
    (hsplit : py_split_dot fieldname = pre ++ seg :: rest)
    (hres : resolve_path msg pre = .ok layer)
    (hmiss : has_field layer seg = false) :
    get_field_value msg fieldname = .error (.attributeError seg)
    ∧ (∀ (fns1 fns2 : List String) (vs : List Payload) (r : Record)
        (rows : List (List Cell)),
        r.msg = msg → extract_values msg fns1 = .ok vs →
        export_step (.writing (fns1 ++ fieldname :: fns2) rows) r
          = (.writing (fns1 ++ fieldname :: fns2) rows, some (.attributeError seg))) := by
  have hval : get_field_value msg fieldname = .error (.attributeError seg) := by
    unfold get_field_value
    rw [hsplit, resolve_path_append (seg :: rest) pre msg layer hres]
    simp [resolve_path, getattr_not_found layer seg hmiss]
  refine ⟨hval, ?_⟩
  intro fns1 fns2 vs r rows hmsg hvs
  have htail : extract_values msg (fieldname :: fns2) = .error (.attributeError seg) := by
    simp [extract_values, hval]
  have hall : extract_values msg (fns1 ++ fieldname :: fns2) = .error (.attributeError seg) :=
    extract_values_append_error msg (fieldname :: fns2) (.attributeError seg) htail fns1 vs hvs
  simp [export_step, make_row, hmsg, hall]

/-- Witness for C6: on pay1 the path a.b reaches the scalar leaf under a and
then fails to find b there; the row-building step for a record carrying pay1
reports that exception. -/
theorem get_field_value_missing_segment_witness :
    get_field_value pay1 "a.b" = .error (.attributeError "b")
    ∧ export_step (.writing (["a"] ++ "a.b" :: []) []) rec1
        = (.writing (["a"] ++ "a.b" :: []) [], some (.attributeError "b")) := by
  have h := get_field_value_missing_segment pay1 (.leaf 1) ["a"] "b" [] "a.b"
    (by decide) rfl rfl
  exact ⟨h.1, h.2 ["a"] [] [.leaf 1] rec1 [] rfl rfl⟩

/-- A successfully built row consists of the record's time stamp in seconds
followed by the extracted field values in field order. -/
theorem make_row_ok_iff (fns : List String) (r : Record) (row : List Cell) :
    make_row fns r = .ok row ↔
      ∃ vals, extract_values r.msg fns = .ok vals
        ∧ row = Cell.time r.t.to_sec :: vals.map Cell.val := by
  unfold make_row
  cases hv : extract_values r.msg fns with
  | error e =>
    constructor
    · intro h; cases h
    · rintro ⟨vals, hvals, hrow⟩; cases hvals
  | ok vals =>
    constructor
    · intro h
      refine ⟨vals, rfl, ?_⟩
      cases h
      rfl
    · rintro ⟨vals2, hvals2, hrow⟩
      cases hvals2
      rw [hrow]

/-- A run of the export loop from the writing state that raises no exception
appends one successfully built row per record, in record order, using the
cached field names unchanged throughout. -/
theorem export_run_writing_ok (fns : List String) :
    ∀ (ms : List Record) (rows : List (List Cell)) (st2 : ExportState),
      export_run (.writing fns rows) ms = (st2, none) →
      ∃ rows2, st2 = .writing fns (rows ++ rows2)
        ∧ List.Forall₂ (fun r row => make_row fns r = .ok row) ms rows2 := by
  intro ms
  induction ms with
  | nil =>
    intro rows st2 h
    simp only [export_run, Prod.mk.injEq, and_true] at h
    exact ⟨[], by simp [← h], List.Forall₂.nil⟩
  | cons r rest ih =>
    intro rows st2 h
    simp only [export_run, export_step] at h
    cases hm : make_row fns r with
    | error e => rw [hm] at h; simp at h
    | ok row =>
      rw [hm] at h
      obtain ⟨rows2, hst, hf⟩ := ih (rows ++ [row]) st2 h
      exact ⟨row :: rows2, by simp [hst], List.Forall₂.cons hm hf⟩

/-- Export loop on its first record when flattening fails: the exception is
raised before the csv file is opened, leaving the start state. -/
theorem export_run_start_flatten_error (m : Record) (ms : List Record) (e : PyError)
    (hfl : flatten_topic_fields m.msg "" = .error e) :
    export_run .start (m :: ms) = (.start, some e) := by
  simp only [export_run, export_step, hfl]

/-- Export loop on its first record when flattening succeeds but the first
row fails to build: the header was written, no row was. -/
theorem export_run_start_row_error (m : Record) (ms : List Record)
    (fns : List String) (e : PyError)
    (hfl : flatten_topic_fields m.msg "" = .ok fns)
    (hmr : make_row fns m = .error e) :
    export_run .start (m :: ms) = (.writing fns [], some e) := by
  simp only [export_run, export_step, hfl, hmr]

/-- Export loop on its first record when the first row is written: the run
continues from the writing state holding that row. -/
theorem export_run_start_row_ok (m : Record) (ms : List Record)
    (fns : List String) (row : List Cell)
    (hfl : flatten_topic_fields m.msg "" = .ok fns)
    (hmr : make_row fns m = .ok row) :
    export_run .start (m :: ms) = export_run (.writing fns [row]) ms := by
  simp only [export_run, export_step, hfl, hmr]

/-- C1: a successful export run over a nonempty matching record stream
flattens the first observed record's payload into the cached field-name
list, writes the header consisting of the synthetic _ros_time_sec column
followed by exactly that list, and writes exactly one data row per matching
record (N records yield N rows), each row holding that record's time stamp
in seconds followed by the values extracted via the cached paths; every row
of the run is built from the single field-name list obtained from the first
record, so the list is never recomputed within the run. -/
theorem export_first_record_header_rows (bag : List Record) (topic_name : String)
    (csv : CsvFile) (m : Record) (ms : List Record)
    (hms : read_messages bag [topic_name] = m :: ms)
    (hexp : export_topic_to_csv bag topic_name = (some csv, none)) :
    ∃ fns, flatten_topic_fields m.msg "" = .ok fns
      ∧ csv.header = "_ros_time_sec" :: fns
      ∧ csv.rows.length = (read_messages bag [topic_name]).length
      ∧ List.Forall₂
          (fun r row => ∃ vals, extract_values r.msg fns = .ok vals
            ∧ row = Cell.time r.t.to_sec :: vals.map Cell.val)
          (read_messages bag [topic_name]) csv.rows := by
  cases hfl : flatten_topic_fields m.msg "" with
  | error e =>
    have hc : export_topic_to_csv bag topic_name = (none, some e) := by
      simp only [export_topic_to_csv, hms, export_run_start_flatten_error m ms e hfl]
      simp [state_file]
    rw [hc] at hexp
    simp at hexp
  | ok fns =>
    cases hmr : make_row fns m with
    | error e =>
      have hc : (export_topic_to_csv bag topic_name).2 = some e := by
        simp only [export_topic_to_csv, hms, export_run_start_row_error m ms fns e hfl hmr]
      rw [hexp] at hc
      simp at hc
    | ok row =>
      cases hrun : export_run (.writing fns [row]) ms with
      | mk st2 err2 =>
        cases err2 with
        | some e =>
          have hc : (export_topic_to_csv bag topic_name).2 = some e := by
            simp only [export_topic_to_csv, hms,
              export_run_start_row_ok m ms fns row hfl hmr, hrun]
          rw [hexp] at hc
          simp at hc
        | none =>
          obtain ⟨rows2, hst, hf⟩ := export_run_writing_ok fns ms [row] st2 hrun
          subst hst
          have hc : export_topic_to_csv bag topic_name
              = (some ⟨"_ros_time_sec" :: fns, row :: rows2⟩, none) := by
            simp only [export_topic_to_csv, hms,
              export_run_start_row_ok m ms fns row hfl hmr, hrun]
            simp
          rw [hc] at hexp
          simp only [Prod.mk.injEq, Option.some.injEq, and_true] at hexp
          subst hexp
          refine ⟨fns, rfl, rfl, ?_, ?_⟩
          · rw [hms]
            simp [hf.length_eq]
          · rw [hms]
            exact List.Forall₂.cons ((make_row_ok_iff fns m row).mp hmr)
              (hf.imp (fun r row2 h2 => (make_row_ok_iff fns r row2).mp h2))

/-- Witness for C1: exporting topic /t from bagT yields csvT, whose header
is the time column followed by the flattened paths of the first record and
whose two rows carry the two record time stamps and extracted values. -/
theorem export_first_record_header_rows_witness :
    ∃ fns, flatten_topic_fields rec1.msg "" = .ok fns
      ∧ csvT.header = "_ros_time_sec" :: fns
      ∧ csvT.rows.length = (read_messages bagT ["/t"]).length
      ∧ List.Forall₂
          (fun r row => ∃ vals, extract_values r.msg fns = .ok vals
            ∧ row = Cell.time r.t.to_sec :: vals.map Cell.val)
          (read_messages bagT ["/t"]) csvT.rows :=
  export_first_record_header_rows bagT "/t" csvT rec1 [rec2] rfl rfl

/-- C3: transfer mode writes each yielded record verbatim in the source's
record order: the output bag is an order-preserving subselection of the
source (no reordering, no deduplication, no time stamp adjustment), and
transferring all channels of a bag reproduces the source's ordered sequence
of (channel, time stamp) pairs exactly. -/
theorem pick_verbatim_order_roundtrip (bag : List Record) (topics : List String) :
    List.Sublist (pick_topics_from_bag bag topics) bag
    ∧ ((∀ r ∈ bag, r.topic ∈ topics) →
        (pick_topics_from_bag bag topics).map (fun r => (r.topic, r.t))
          = bag.map (fun r => (r.topic, r.t))) := by
  constructor
  · simp only [pick_topics_from_bag, read_messages]
    exact List.filter_sublist bag
  · intro hall
    have hself : pick_topics_from_bag bag topics = bag := by
      simp only [pick_topics_from_bag, read_messages]
      apply List.filter_eq_self.mpr
      intro r hr
      simp [hall r hr]
    rw [hself]

/-- Witness for C3: picking both topics of bagT transfers all three records
and reproduces the (channel, time stamp) sequence of the source. -/
theorem pick_verbatim_order_roundtrip_witness :
    List.Sublist (pick_topics_from_bag bagT ["/t", "/u"]) bagT
    ∧ (pick_topics_from_bag bagT ["/t", "/u"]).map (fun r => (r.topic, r.t))
        = bagT.map (fun r => (r.topic, r.t)) :=
  ⟨(pick_verbatim_order_roundtrip bagT ["/t", "/u"]).1,
   (pick_verbatim_order_roundtrip bagT ["/t", "/u"]).2 (by decide)⟩

/-- The removal output consists exactly of the source records whose topic is
not in the removal list: a record of the source has its topic in the kept
topic list precisely when its topic is not being removed. -/
theorem remove_eq_filter_not (bag : List Record) (topics : List String) :
    remove_topics_from_bag bag topics
      = bag.filter (fun r => !topics.contains r.topic) := by
  unfold remove_topics_from_bag read_messages
  apply List.filter_congr
  intro r hr
  have hmem : r.topic ∈ bag_channels bag :=
    List.mem_dedup.mpr (List.mem_map_of_mem Record.topic hr)
  unfold topics_remain
  cases hc : topics.contains r.topic with
  | true =>
    replace hc : r.topic ∈ topics := by simpa using hc
    simp [List.mem_filter, hc]
  | false =>
    replace hc : r.topic ∉ topics := by simpa using hc
    simp [List.mem_filter, hc, hmem]

/-- C4: for any topic set, pick and remove on the same source partition the
source's records with no overlap and no loss: their concatenation is a
permutation of the source, the output lengths sum to the source's record
count, and every record occurrence is in exactly one of the two outputs. -/
theorem pick_remove_partition (bag : List Record) (topics : List String) :
    List.Perm (pick_topics_from_bag bag topics ++ remove_topics_from_bag bag topics) bag
    ∧ (pick_topics_from_bag bag topics).length
        + (remove_topics_from_bag bag topics).length = bag.length
    ∧ ∀ r, (pick_topics_from_bag bag topics).count r
          + (remove_topics_from_bag bag topics).count r = bag.count r := by
  have hperm :
      List.Perm (pick_topics_from_bag bag topics ++ remove_topics_from_bag bag topics) bag := by
    rw [remove_eq_filter_not]
    simp only [pick_topics_from_bag, read_messages]
    exact List.filter_append_perm _ bag
  refine ⟨hperm, ?_, ?_⟩
  · have := hperm.length_eq
    simpa using this
  · intro r
    have := hperm.count_eq r
    simpa [List.count_append] using this

/-- C5: the Python functions promise in their docstrings to return the
number of messages written, but none of them has a return statement: a
completed export of two records produces a two-row csv file yet returns
None, and completed pick and remove runs likewise return None rather than
the count of records written. -/
theorem completed_runs_return_none :
    ((export_topic_to_csv bagT "/t").1.map (fun f => f.rows.length) = some 2
      ∧ export_topic_to_csv_ret bagT "/t" = .ok PyValue.none
      ∧ export_topic_to_csv_ret bagT "/t" ≠ .ok (PyValue.int 2))
    ∧ ((pick_topics_run (some bagT) ["/t"]).1 = .ok ([rec1, rec2], PyValue.none)
      ∧ (pick_topics_run (some bagT) ["/t"]).1 ≠ .ok ([rec1, rec2], PyValue.int 2))
    ∧ (remove_topics_run (some bagT) ["/t"]).1 = .ok ([rec3], PyValue.none) := by
  refine ⟨⟨rfl, rfl, ?_⟩, ⟨rfl, ?_⟩, rfl⟩
  · intro h
    injection h with h2
    cases h2
  · intro h
    injection h with h2
    injection h2 with h3 h4
    cases h4

/-- C8: exporting a channel with zero matching records never opens the csv
file, so no sink and no header-only file is created, but the unconditional
csv_file.close() at line 115 of export_csv.py then runs on None and raises
AttributeError instead of completing without error. -/
theorem export_zero_matching_records_crash :
    read_messages [rec1] ["/b"] = []
    ∧ export_topic_to_csv [rec1] "/b" = (none, some (.attributeError "close")) :=
  ⟨rfl, rfl⟩

/-- C9 counterexample: the batch loops of export_csv main have no exception
handling, so an error on the first file/channel pair (here: a topic with no
matching records, whose export raises) makes the whole batch evaluate to
that error instead of continuing; the second pair, which on its own
succeeds, is never processed. -/
theorem export_batch_error_not_caught :
    export_csv_main [[rec1]] ["/b", "/t"] = .error (.attributeError "close")
    ∧ (export_topic_to_csv [rec1] "/t").2 = none :=
  ⟨rfl, rfl⟩

/-- C9 amended: an error raised while processing one file/channel pair is
not caught at the batch-iteration boundary: after any number of successful
topics on the first bag, the first failing topic makes the exception
propagate out of both batch loops, so the remaining topics and the remaining
bag files are never processed. -/
theorem export_batch_error_aborts_rest (bag : List Record) (bags : List (List Record))
    (ts1 : List String) (t : String) (ts2 : List String) (e : PyError)
    (hok : ∀ t2 ∈ ts1, (export_topic_to_csv bag t2).2 = none)
    (he : (export_topic_to_csv bag t).2 = some e) :
    export_csv_main (bag :: bags) (ts1 ++ t :: ts2) = .error e := by
  have hinner : ∀ (l : List String), (∀ t2 ∈ l, (export_topic_to_csv bag t2).2 = none) →
      ∀ (acc : List (Option CsvFile)),
        export_csv_inner bag (l ++ t :: ts2) acc = .error e := by
    intro l
    induction l with
    | nil =>
      intro _ acc
      cases hp : export_topic_to_csv bag t with
      | mk f err =>
        rw [hp] at he
        simp only at he
        subst he
        simp [export_csv_inner, hp]
    | cons t2 rest ih =>
      intro hl acc
      cases hp : export_topic_to_csv bag t2 with
      | mk f2 err2 =>
        have h2 : err2 = none := by
          have := hl t2 (by simp)
          rw [hp] at this
          simpa using this
        subst h2
        simp only [List.cons_append, export_csv_inner, hp]
        exact ih (fun t3 ht3 => hl t3 (by simp [ht3])) (acc ++ [f2])
  simp only [export_csv_main, export_csv_outer, hinner ts1 hok []]

/-- Witness for C9 amended: a successful export of topic /t on the first bag
followed by the failing topic /b aborts the batch with the uncaught
exception, never reaching the second bag. -/
theorem export_batch_error_aborts_rest_witness :
    export_csv_main [[rec1], [rec2]] (["/t"] ++ "/b" :: ["/t"]) = .error (.attributeError "close") :=
  export_batch_error_aborts_rest [rec1] [[rec2]] ["/t"] "/b" ["/t"] (.attributeError "close")
    (by
      intro t2 ht
      simp only [List.mem_singleton] at ht
      subst ht
      rfl)
    rfl

/-- C10: in both pick and remove the source bag is opened before the
destination bag is created, so a run whose source fails to open raises and
the destination bag file is never created. -/
theorem transfer_source_open_fail_no_dest (topics : List String) :
    pick_topics_run (none : Option (List Record)) topics = (.error (.ioError "bag"), false)
    ∧ remove_topics_run (none : Option (List Record)) topics = (.error (.ioError "bag"), false) :=
  ⟨rfl, rfl⟩
